import Mathlib

/-!
Verification development for the `noaa_tides` Home Assistant integration.

The definitions below are a shallow embedding of the Python source in
`custom_components/noaa_tides/sensor.py` and
`custom_components/noaa_tides/stations.py`:

* pure text processing (the NDBC buoy feed decoder in
  `NOAABuoyDataUpdateCoordinator._fetch_data`) becomes pure functions on
  `String`/`List String`, with Python exceptions modelled by `Except`;
* Python `float` values are modelled by `ℚ` (the decimal literals occurring
  in the feeds are exact rationals); Python `int` by `Int`;
* `datetime` values are modelled by integer timestamps in seconds; the
  `strftime`/`strptime` round trip through `"%-I:%M %p"` strings is modelled
  by its effect, truncation to a minute-resolution second-of-day;
* the module-level station cache becomes explicit state passing, and the
  network is an explicit parameter (the response the environment returns).

Timestamps of the two `datetime.now()` reads inside one
`extra_state_attributes` evaluation are modelled as a single instant `now`.
-/

/-! ## Python-style dictionaries and small string utilities -/

/-- Python `dict` assignment `d[k] = v` on an insertion-ordered association
list: overwrite the first (unique) occurrence of `k` in place, otherwise
append at the end. -/
def dictInsert {α : Type} (k : String) (v : α) : List (String × α) → List (String × α)
  | [] => [(k, v)]
  | (k0, v0) :: rest => if k0 = k then (k0, v) :: rest else (k0, v0) :: dictInsert k v rest

/-- Split a character list at every newline character (groups in order,
the separator dropped). -/
def splitNL : List Char → List (List Char)
  | [] => [[]]
  | c :: rest =>
    if c = '\n' then [] :: splitNL rest
    else
      match splitNL rest with
      | [] => [[c]]
      | g :: gs => (c :: g) :: gs

/-- Python `str.splitlines` for newline-separated text: split at newlines and
drop the trailing empty piece a final newline would produce, so that
`""` has no lines and `"a\n"` has exactly one. -/
def splitlines (s : String) : List String :=
  let parts := (splitNL s.toList).map (fun g => String.mk g)
  match parts.getLast? with
  | some "" => parts.dropLast
  | _ => parts

/-- Accumulator pass of Python `str.split()`: split on whitespace runs,
producing no empty tokens. -/
def wsSplitAux : List Char → List Char → List (List Char)
  | [], acc => if acc = [] then [] else [acc.reverse]
  | c :: rest, acc =>
    if c.isWhitespace then
      if acc = [] then wsSplitAux rest [] else acc.reverse :: wsSplitAux rest []
    else wsSplitAux rest (c :: acc)

/-- Python `str.split()` with no argument: whitespace-delimited tokens. -/
def pySplitWs (s : String) : List String := (wsSplitAux s.toList []).map String.mk

/-- Python `str.strip("#")`: remove leading and trailing `#` characters. -/
def stripHashes (s : String) : String :=
  String.mk (((s.toList.dropWhile (fun c => c = '#')).reverse.dropWhile
    (fun c => c = '#')).reverse)

/-- Numeric value of a nonempty digit string (helper for the Python numeric
constructors). -/
def digitsToNat? (l : List Char) : Option Nat :=
  if l = [] then none
  else if l.all Char.isDigit then
    some (l.foldl (fun a c => a * 10 + (c.toNat - 48)) 0)
  else none

/-- Split an optional leading sign off a token, returning the sign as `±1`. -/
def splitSign : List Char → Int × List Char
  | '+' :: rest => (1, rest)
  | '-' :: rest => (-1, rest)
  | l => (1, l)

/-- Python `int(token)` on a whitespace-free token: optional sign followed by
at least one digit; `none` models the `ValueError` raised otherwise. -/
def pyInt? (s : String) : Option Int :=
  let (sgn, cs) := splitSign s.toList
  match digitsToNat? cs with
  | some n => some (sgn * n)
  | none => none

/-- Python `float(token)` on a whitespace-free decimal token: optional sign,
integer part, optional dot and fractional part, with at least one digit
overall.  The value is the exact rational the decimal denotes; `none` models
`ValueError`. -/
def pyFloat? (s : String) : Option ℚ :=
  let (sgn, cs) := splitSign s.toList
  let ip := cs.takeWhile (fun c => c ≠ '.')
  match cs.dropWhile (fun c => c ≠ '.') with
  | [] =>
    match digitsToNat? ip with
    | some n => some ((sgn : ℚ) * n)
    | none => none
  | _ :: fp =>
    if ip.all Char.isDigit ∧ fp.all Char.isDigit ∧ (ip ≠ [] ∨ fp ≠ []) then
      some ((sgn : ℚ) * ((ip.foldl (fun a c => a * 10 + (c.toNat - 48)) 0 : ℚ)
        + (fp.foldl (fun a c => a * 10 + (c.toNat - 48)) 0 : ℚ) / (10 : ℚ) ^ fp.length))
    else none

/-- Round an exact rational to the nearest integer, ties to even (the
behaviour of Python `round` on an exactly representable value). -/
def roundHalfEven (q : ℚ) : Int :=
  let f : Int := ⌊q⌋
  if q - f < 1 / 2 then f
  else if q - f > 1 / 2 then f + 1
  else if f % 2 = 0 then f else f + 1

/-- Python `round(x, 1)`: round to one decimal place, ties to even. -/
def pyRound1 (q : ℚ) : ℚ := (roundHalfEven (q * 10) : ℚ) / 10

/-! ## The NDBC buoy feed decoder (`NOAABuoyDataUpdateCoordinator._fetch_data`) -/

/-- Decoded value of one buoy feed column: the missing-value sentinel kept
as-is, a Python `int`, or a Python `float`. -/
inductive BuoyVal where
  | mm
  | intVal (n : Int)
  | floatVal (q : ℚ)
deriving DecidableEq

/-- Failure of the buoy fetch text processing: the explicit `UpdateFailed`
raised for short responses, the `IndexError` from indexing past the end of
the units or values row, or the `ValueError` from `int()`/`float()`. -/
inductive FetchErr where
  | tooFewLines
  | indexError
  | valueError
deriving DecidableEq

/-- Decoded buoy data dictionary: field name to (unit, value), in insertion
order. -/
abbrev BuoyDict := List (String × String × BuoyVal)

/-- Decoding of one value token, the body of the column loop in
`_fetch_data`: the sentinel check first, then `float` when a decimal point
is present, else `int`. -/
def decodeTok (t : String) : Except FetchErr BuoyVal :=
  if t = "MM" then .ok .mm
  else if t.toList.contains '.' then
    match pyFloat? t with
    | some q => .ok (.floatVal q)
    | none => .error .valueError
  else
    match pyInt? t with
    | some n => .ok (.intVal n)
    | none => .error .valueError

/-- Column loop of `_fetch_data`: `for i in range(len(fields))`, reading
`units[i]` and `values[i]` positionally (`IndexError` when a row is shorter
than the fields row) and storing `(unit, value)` under the field name. -/
def parseBuoyCols (acc : BuoyDict) :
    List String → List String → List String → Except FetchErr BuoyDict
  | [], _, _ => .ok acc
  | _ :: _, [], _ => .error .indexError
  | _ :: _, _ :: _, [] => .error .indexError
  | f :: fs, u :: us, v :: vs =>
    match decodeTok v with
    | .ok w => parseBuoyCols (dictInsert f (u, w) acc) fs us vs
    | .error e => .error e

/-- Text-processing core of `NOAABuoyDataUpdateCoordinator._fetch_data`:
split the response text into lines, fail with the explicit `UpdateFailed`
when fewer than 3 lines are present, otherwise decode the columns from the
field-name row, the unit row and the first (most recent) data row. -/
def buoy_fetch_data (text : String) : Except FetchErr BuoyDict :=
  let lines := splitlines text
  if lines.length < 3 then .error .tooFewLines
  else
    match lines with
    | l0 :: l1 :: l2 :: _ =>
      parseBuoyCols [] (pySplitWs (stripHashes l0)) (pySplitWs (stripHashes l1))
        (pySplitWs l2)
    | _ => .error .tooFewLines

/-- Lookup into the decoded dictionary of a successfully parsed column set;
`none` when parsing failed or the field is absent. -/
def parsedLookup (fields units values : List String) (f : String) :
    Option (String × BuoyVal) :=
  match parseBuoyCols [] fields units values with
  | .ok d => List.lookup f d
  | .error _ => none

/-- Success test for the buoy decoding. -/
def fetchOk : Except FetchErr BuoyDict → Bool
  | .ok _ => true
  | .error _ => false

/-- Error projection of the buoy decoding: the raised failure, if any. -/
def fetchErrOf : Except FetchErr BuoyDict → Option FetchErr
  | .ok _ => none
  | .error e => some e

/-- Value part of a lookup result is a decoded `float`. -/
def valIsFloat : Option (String × BuoyVal) → Bool
  | some (_, .floatVal _) => true
  | _ => false

/-- Value part of a lookup result is a decoded `int`. -/
def valIsInt : Option (String × BuoyVal) → Bool
  | some (_, .intVal _) => true
  | _ => false

/-! ## The buoy sensor (`NOAABuoySensor`) -/

/-- Python-level errors of the buoy attribute computation: a missing date
field key or a date field whose value is not an `int`. -/
inductive PyErr where
  | keyError
  | typeError
  | indexError
deriving DecidableEq

/-- Naive `datetime` built from the buoy date columns (`datetime(YY, MM, DD,
hour=hh, minute=mm, tzinfo=utc)`). -/
structure BuoyTime where
  year : Int
  month : Int
  day : Int
  hour : Int
  minute : Int
deriving DecidableEq

/-- Attribute values the buoy sensor reports: strings, decoded ints and
floats, and the observation timestamp, either rendered in UTC or converted
to the host's local zone (the local rendering is environmental, so only the
branch taken and the underlying instant are recorded). -/
inductive AttrVal where
  | s (v : String)
  | i (n : Int)
  | q (v : ℚ)
  | tUtc (d : BuoyTime)
  | tLoc (d : BuoyTime)
deriving DecidableEq

/-- Date/time field names of the buoy feed, skipped by the attribute loop. -/
def dateKeys : List String := ["YY", "MM", "DD", "hh", "mm"]

/-- Rational value of a decoded buoy number (Python arithmetic promotes the
`int` case to `float` on division). -/
def buoyValQ : BuoyVal → ℚ
  | .mm => 0
  | .intVal n => (n : ℚ)
  | .floatVal q => q

/-- Attribute value carrying a decoded buoy number unchanged. -/
def attrOfBuoyVal : BuoyVal → AttrVal
  | .mm => .s "MM"
  | .intVal n => .i n
  | .floatVal q => .q q

/-- Entries one buoy column contributes to `NOAABuoySensor
.extra_state_attributes`: date columns and sentinel values contribute
nothing; otherwise a `_time` attribute, then the unit and value, converted
`degC → degF` (rounded to one decimal) when the consumer's unit system is
`english`. -/
def buoyColAttrs (unit_system : String) (isGmt : Bool) (dt : BuoyTime)
    (k unit : String) (v : BuoyVal) : List (String × AttrVal) :=
  if k ∈ dateKeys then []
  else if v = .mm then []
  else
    let tEntry : String × AttrVal :=
      (k ++ "_time", if isGmt then .tUtc dt else .tLoc dt)
    if unit_system = "english" ∧ unit = "degC" then
      [tEntry, (k ++ "_unit", .s "degF"),
        (k, .q (pyRound1 (buoyValQ v * 9 / 5 + 32)))]
    else
      [tEntry, (k ++ "_unit", .s unit), (k, attrOfBuoyVal v)]

/-- Attribute loop of `NOAABuoySensor.extra_state_attributes` over the
decoded dictionary, assembling a Python dict of attributes. -/
def buoyAttrLoop (unit_system : String) (isGmt : Bool) (dt : BuoyTime) :
    BuoyDict → List (String × AttrVal) → List (String × AttrVal)
  | [], attr => attr
  | (k, u, v) :: rest, attr =>
    buoyAttrLoop unit_system isGmt dt rest
      ((buoyColAttrs unit_system isGmt dt k u v).foldl
        (fun a e => dictInsert e.1 e.2 a) attr)

/-- Integer-valued date field lookup (`data["YY"][1]` and friends);
a missing key raises `KeyError`, a non-`int` value makes the `datetime`
constructor raise. -/
def lookupInt (d : BuoyDict) (k : String) : Except PyErr Int :=
  match List.lookup k d with
  | some (_, .intVal n) => .ok n
  | some _ => .error .typeError
  | none => .error .keyError

/-- Model of `NOAABuoySensor.extra_state_attributes`: empty when the
coordinator has no data, otherwise the observation time is assembled from
the date columns and every remaining column is rendered by the attribute
loop. -/
def buoy_extra_state_attributes (unit_system : String) (isGmt : Bool) :
    Option BuoyDict → Except PyErr (List (String × AttrVal))
  | none => .ok []
  | some data => do
    let yy ← lookupInt data "YY"
    let mo ← lookupInt data "MM"
    let dd ← lookupInt data "DD"
    let hh ← lookupInt data "hh"
    let mi ← lookupInt data "mm"
    .ok (buoyAttrLoop unit_system isGmt ⟨yy, mo, dd, hh, mi⟩ data [])

/-- Model of `NOAABuoySensor.native_value`: `None` without coordinator data,
without a `WTMP` column, or when `WTMP` is the sentinel; the decoded value
as-is under the metric system, else the Fahrenheit conversion rounded to one
decimal place. -/
def buoy_native_value (unit_system : String) : Option BuoyDict → Option BuoyVal
  | none => none
  | some data =>
    match List.lookup "WTMP" data with
    | none => none
    | some (_, v) =>
      if v = .mm then none
      else if unit_system = "metric" then some v
      else some (.floatVal (pyRound1 (buoyValQ v * 9 / 5 + 32)))

/-! ## The temperature sensor (`NOAATemperatureSensor`) -/

/-- Pandas `df.tail(1)`: the last row of a frame, modelled on the list of
column values in time order (the last entry is the most recent). -/
def tail1 (l : List ℚ) : List ℚ := l.drop (l.length - 1)

/-- Data produced by `NOAATemperatureDataUpdateCoordinator._fetch_data`:
each of the two fetched series is `none` when its fetch failed, else its
`tail(1)`. -/
def temp_fetch_data (wfull afull : Option (List ℚ)) :
    Option (List ℚ) × Option (List ℚ) :=
  (wfull.map tail1, afull.map tail1)

/-- Positional `series[0]` access; `IndexError`-like failure on an empty
frame. -/
def seriesGet0 : List ℚ → Except PyErr ℚ
  | [] => .error .indexError
  | x :: _ => .ok x

/-- Model of `NOAATemperatureSensor.native_value`: `None` without
coordinator data; the air temperature when only the water series is missing;
`None` when both are missing; else the water temperature. -/
def temp_native_value :
    Option (Option (List ℚ) × Option (List ℚ)) → Except PyErr (Option ℚ)
  | none => .ok none
  | some (none, some a) => do
    let v ← seriesGet0 a
    .ok (some v)
  | some (none, none) => .ok none
  | some (some w, _) => do
    let v ← seriesGet0 w
    .ok (some v)

/-! ## The tides sensor (`NOAATidesAndCurrentsSensor`) -/

/-- One row of the `hilo` predictions frame: timestamp (seconds), high/low
flag, predicted water level. -/
structure TidePred where
  time : Int
  hi_lo : String
  predicted_wl : ℚ
deriving DecidableEq

/-- One row of the current water level frame. -/
structure WLObs where
  time : Int
  water_level : ℚ
deriving DecidableEq

/-- Coordinator payload of `NOAATidesDataUpdateCoordinator` (the dict with
`predictions` and `current_water_level` entries). -/
structure CoordData where
  predictions : Option (List TidePred)
  current_water_level : Option (List WLObs)

/-- State attributes dict of the tides sensor.  `last_tide_time` and
`next_tide_time` hold the `"%-I:%M %p"`-formatted strings, modelled by the
minute-truncated second-of-day they denote.  `tide_factor` is a Python
float computed with `math.cos`, modelled by a real number. -/
structure TideAttrs where
  current_water_level : Option ℚ := none
  current_water_level_time : Option Int := none
  next_tide_time : Option Nat := none
  last_tide_time : Option Nat := none
  next_tide_type : Option String := none
  last_tide_type : Option String := none
  high_tide_level : Option ℚ := none
  low_tide_level : Option ℚ := none
  tide_factor : Option ℝ := none

/-- Effect of `strftime("%-I:%M %p")` followed by `strptime(.., "%I:%M %p")`
on a timestamp: the date is discarded and seconds are truncated, leaving a
minute-resolution second-of-day. -/
def fmtTime12h (t : Int) : Nat := ((t.emod 86400).toNat / 60) * 60

/-- Python `(a - b).seconds` for datetimes `a`, `b` given in seconds: the
seconds component of the normalised `timedelta`, i.e. the difference modulo
one day. -/
def tdSeconds (a b : Int) : Nat := ((a - b).emod 86400).toNat

/-- Model of `NOAATidesAndCurrentsSensor.update_tide_factor_from_attr`:
nothing happens without an attribute dict or when one of the three used
attributes is missing; otherwise the re-parsed tide times give the period
and elapsed seconds and a half-cosine easing yields the factor, rising
towards a `High` next tide and falling otherwise. -/
noncomputable def update_tide_factor_from_attr (now : Int) :
    Option TideAttrs → Option TideAttrs
  | none => none
  | some a =>
    match a.last_tide_time, a.next_tide_time, a.next_tide_type with
    | some lt, some nt, some ty =>
      let predicted_period := tdSeconds (nt : Int) (lt : Int)
      let elapsed := tdSeconds now (lt : Int)
      let ease : ℝ := 50 * Real.cos (elapsed * Real.pi / predicted_period)
      if ty = "High" then
        some { a with tide_factor := some (50 - ease) }
      else
        some { a with tide_factor := some (50 + ease) }
    | _, _, _ => some a

/-- First half of the publishing step of the row loop in
`NOAATidesAndCurrentsSensor.extra_state_attributes`: store the formatted
next/last tide time strings. -/
def publishTimes (attr : TideAttrs) (m : Int) (p : TidePred) : TideAttrs :=
  { attr with
    next_tide_time := some (fmtTime12h p.time),
    last_tide_time := some (fmtTime12h m) }

/-- Second half of the publishing step: classify the next tide's type (and
the complementary previous type) from the row's `hi_lo` flag and record the
corresponding predicted level; rows with any other flag set no type
attributes. -/
def classifyTide (a1 : TideAttrs) (p : TidePred) : TideAttrs :=
  if p.hi_lo = "H" then
    { a1 with
      next_tide_type := some "High"
      last_tide_type := some "Low"
      high_tide_level := some p.predicted_wl }
  else if p.hi_lo = "L" then
    { a1 with
      next_tide_type := some "Low"
      last_tide_type := some "High"
      low_tide_level := some p.predicted_wl }
  else a1

/-- Publishing step of the row loop, reached at the first future row `p`
with `most_recent` value `m`: publish the next/last tide attributes,
classify them, and recompute the tide factor. -/
noncomputable def scanFire (now : Int) (attr : TideAttrs) (m : Int)
    (p : TidePred) : TideAttrs :=
  (update_tide_factor_from_attr now
    (some (classifyTide (publishTimes attr m p) p))).getD
    (classifyTide (publishTimes attr m p) p)

/-- Row loop of `NOAATidesAndCurrentsSensor.extra_state_attributes`: walk the
prediction rows keeping the running `most_recent` timestamp; at the first row
that is neither a `most_recent` update nor in the past, publish the next/last
tide attributes through `scanFire` and stop. -/
noncomputable def scanLoop (now : Int) (attr : TideAttrs) (most_recent : Option Int) :
    List TidePred → TideAttrs
  | [] => attr
  | p :: rest =>
    match most_recent with
    | none => scanLoop now attr (some p.time) rest
    | some m =>
      if p.time ≤ now ∧ m < p.time then scanLoop now attr (some p.time) rest
      else if now < p.time then scanFire now attr m p
      else scanLoop now attr (some m) rest

/-- `NOAATidesAndCurrentsSensor._extract_coordinator_data` on the dict-shaped
coordinator payload. -/
def extractCoordinatorData :
    Option CoordData → Option (List TidePred) × Option (List WLObs)
  | none => (none, none)
  | some cd => (cd.predictions, cd.current_water_level)

/-- Model of `NOAATidesAndCurrentsSensor.extra_state_attributes`: starting
from the previous attribute dict (fresh when `None`), return it unchanged
without prediction data; otherwise publish the latest water-level
observation when present and run the prediction row loop. -/
noncomputable def extra_state_attributes (now : Int) (attr0 : Option TideAttrs)
    (cdata : Option CoordData) : TideAttrs :=
  let attr := attr0.getD {}
  match extractCoordinatorData cdata with
  | (none, _) => attr
  | (some data, cwl) =>
    let attr1 :=
      match cwl with
      | some l =>
        match l.getLast? with
        | some obs => { attr with
            current_water_level := some obs.water_level,
            current_water_level_time := some obs.time }
        | none => attr
      | none => attr
    scanLoop now attr1 none data

/-- Strictly increasing timestamps, continuing from a given lower bound
(executable sortedness predicate for prediction windows). -/
def timesSortedFrom (m : Int) : List TidePred → Bool
  | [] => true
  | p :: rest => decide (m < p.time) && timesSortedFrom p.time rest

/-- Strictly increasing timestamps of a prediction window. -/
def timesSorted : List TidePred → Bool
  | [] => true
  | p :: rest => timesSortedFrom p.time rest

/-! ## Station directory lookup and cache (`stations.py`) -/

/-- Station directory record (`id`/`name`/`state` are absent-able JSON
fields, read with `dict.get`). -/
structure StationRec where
  sid : Option String
  sname : Option String
  sstate : Option String
deriving DecidableEq

/-- Environment's answer to the directory HTTP request: a 200 response
carrying the station list, a non-200 status, or a raised exception. -/
inductive NetResp where
  | ok (stations : List StationRec)
  | httpError (code : Int)
  | exn

/-- Process-wide `_station_cache`, keyed by `"noaa_" ++ station_type`. -/
abbrev StationCache := List (String × List StationRec)

/-- Model of `fetch_noaa_stations`: answer from the cache when the key is
present (no request); otherwise perform the request, caching and returning
the list on success and returning `[]` (uncached) on HTTP errors and
exceptions.  The `Bool` records whether a network request was made. -/
def fetch_noaa_stations (cache : StationCache) (station_type : String)
    (resp : NetResp) : List StationRec × StationCache × Bool :=
  match List.lookup ("noaa_" ++ station_type) cache with
  | some stations => (stations, cache, false)
  | none =>
    match resp with
    | .ok stations =>
      (stations, dictInsert ("noaa_" ++ station_type) stations cache, true)
    | .httpError _ => ([], cache, true)
    | .exn => ([], cache, true)

/-- Python `str.isalnum` (ASCII model). -/
def pyIsalnum (s : String) : Bool := s ≠ "" && s.toList.all Char.isAlphanum

/-- Model of `verify_station_id`, with the directory contents the two
`fetch_noaa_stations` calls would return passed explicitly: buoy ids are
format-checked only; other station types are looked up by exact id in the
tide-predictions list and then the water-levels list, defaulting the display
name, with a not-found result otherwise. -/
def verify_station_id (station_type station_id : String)
    (tidepred waterlevels : List StationRec) : Bool × String :=
  if station_type = "buoy" then
    if 5 ≤ station_id.length ∧ pyIsalnum station_id then
      (true, "Buoy " ++ station_id)
    else
      (false, "Invalid buoy ID format (must be at least 5 alphanumeric characters)")
  else
    match tidepred.find? (fun s => s.sid = some station_id) with
    | some s => (true, s.sname.getD "Unknown Station")
    | none =>
      match waterlevels.find? (fun s => s.sid = some station_id) with
      | some s => (true, s.sname.getD "Unknown Station")
      | none => (false, "Station ID " ++ station_id ++ " not found")

/-! ## Lemmas about the buoy decoder -/

theorem decodeTok_ne_tooFew (v : String) : decodeTok v ≠ .error .tooFewLines := by
  unfold decodeTok
  split
  · simp
  · split
    · cases pyFloat? v <;> simp
    · cases pyInt? v <;> simp

theorem parse_no_tooFewLines (fs : List String) :
    ∀ (acc : BuoyDict) (us vs : List String),
      fetchErrOf (parseBuoyCols acc fs us vs) ≠ some .tooFewLines := by
  induction fs with
  | nil => intro acc us vs; simp [parseBuoyCols, fetchErrOf]
  | cons f fs ih =>
    intro acc us vs
    cases us with
    | nil => simp [parseBuoyCols, fetchErrOf]
    | cons u us =>
      cases vs with
      | nil => simp [parseBuoyCols, fetchErrOf]
      | cons v vs =>
        simp only [parseBuoyCols]
        cases hd : decodeTok v with
        | ok w => exact ih _ _ _
        | error e =>
          have := decodeTok_ne_tooFew v
          rw [hd] at this
          simp [fetchErrOf]
          intro he
          exact this (by rw [he])

/-- C3: a buoy feed response whose text splits into fewer than 3 lines makes
`_fetch_data` raise the explicit `UpdateFailed` and return no decoded value,
while a response with 3 or more lines never fails on that account. -/
theorem buoy_fetch_min_lines (text : String) :
    ((splitlines text).length < 3 → buoy_fetch_data text = .error .tooFewLines) ∧
    (3 ≤ (splitlines text).length →
      fetchErrOf (buoy_fetch_data text) ≠ some .tooFewLines) := by
  constructor
  · intro h
    unfold buoy_fetch_data
    simp only [if_pos h]
  · intro h
    unfold buoy_fetch_data
    rw [if_neg (by omega)]
    cases h0 : splitlines text with
    | nil => rw [h0] at h; simp at h
    | cons l0 rest0 =>
      cases h1 : rest0 with
      | nil => rw [h0, h1] at h; simp at h
      | cons l1 rest1 =>
        cases h2 : rest1 with
        | nil => rw [h0, h1, h2] at h; simp at h
        | cons l2 rest2 =>
          exact parse_no_tooFewLines _ _ _ _

theorem buoy_fetch_min_lines_witness :
    buoy_fetch_data "42001" = Except.error FetchErr.tooFewLines ∧
    fetchErrOf (buoy_fetch_data "#WD WTMP\n#degT degC\n220 25.1") ≠
      some FetchErr.tooFewLines :=
  ⟨(buoy_fetch_min_lines "42001").1 (by decide),
   (buoy_fetch_min_lines "#WD WTMP\n#degT degC\n220 25.1").2 (by decide)⟩

theorem lookup_dictInsert_self {α : Type} (k : String) (v : α)
    (l : List (String × α)) : List.lookup k (dictInsert k v l) = some v := by
  induction l with
  | nil => simp [dictInsert, List.lookup]
  | cons h t ih =>
    obtain ⟨k0, v0⟩ := h
    by_cases hk : k0 = k
    · subst hk
      simp [dictInsert, List.lookup]
    · have hbeq : (k == k0) = false := beq_eq_false_iff_ne.mpr (Ne.symm hk)
      simp only [dictInsert, if_neg hk, List.lookup, hbeq]
      exact ih

theorem lookup_dictInsert_ne {α : Type} (k k0 : String) (v : α)
    (l : List (String × α)) (h : k0 ≠ k) :
    List.lookup k0 (dictInsert k v l) = List.lookup k0 l := by
  induction l with
  | nil => simp [dictInsert, List.lookup, beq_eq_false_iff_ne.mpr h]
  | cons hd t ih =>
    obtain ⟨k1, v1⟩ := hd
    by_cases hk : k1 = k
    · subst hk
      simp only [dictInsert, if_pos rfl, List.lookup,
        beq_eq_false_iff_ne.mpr h]
    · simp only [dictInsert, if_neg hk, List.lookup]
      by_cases hk0 : k0 = k1
      · simp only [beq_iff_eq.mpr hk0]
      · simp only [beq_eq_false_iff_ne.mpr hk0]
        exact ih

theorem parse_lookup_notin (fs : List String) :
    ∀ (acc d : BuoyDict) (us vs : List String) (f : String),
      parseBuoyCols acc fs us vs = .ok d → f ∉ fs →
      List.lookup f d = List.lookup f acc := by
  induction fs with
  | nil =>
    intro acc d us vs f h _
    simp only [parseBuoyCols] at h
    cases h
    rfl
  | cons f0 fs ih =>
    intro acc d us vs f h hf
    cases us with
    | nil => simp [parseBuoyCols] at h
    | cons u us =>
      cases vs with
      | nil => simp [parseBuoyCols] at h
      | cons v vs =>
        simp only [parseBuoyCols] at h
        cases hd : decodeTok v with
        | error e => rw [hd] at h; simp at h
        | ok w =>
          rw [hd] at h
          have hne : f ≠ f0 := fun he => hf (by simp [he])
          have hnotin : f ∉ fs := fun hin => hf (List.mem_cons_of_mem _ hin)
          rw [ih _ _ _ _ _ h hnotin]
          exact lookup_dictInsert_ne f0 f (u, w) acc hne

theorem decodeTok_ok_cases (t : String) (w : BuoyVal) (h : decodeTok t = .ok w) :
    (t = "MM" → w = .mm) ∧
    (t ≠ "MM" → t.toList.contains '.' = true → ∃ q, w = .floatVal q) ∧
    (t ≠ "MM" → t.toList.contains '.' = false → ∃ n, w = .intVal n) := by
  unfold decodeTok at h
  refine ⟨fun hmm => ?_, fun hmm hdot => ?_, fun hmm hdot => ?_⟩
  · rw [if_pos hmm] at h
    cases h
    rfl
  · rw [if_neg hmm, hdot, if_pos rfl] at h
    cases hq : pyFloat? t with
    | none => rw [hq] at h; cases h
    | some q =>
      rw [hq] at h
      cases h
      exact ⟨q, rfl⟩
  · rw [if_neg hmm, hdot] at h
    simp only [Bool.false_eq_true, if_false] at h
    cases hn : pyInt? t with
    | none => rw [hn] at h; cases h
    | some n =>
      rw [hn] at h
      cases h
      exact ⟨n, rfl⟩

theorem parse_lookup_col (i : Nat) :
    ∀ (fields units values : List String) (acc d : BuoyDict) (f u t : String),
      parseBuoyCols acc fields units values = .ok d → fields.Nodup →
      fields.get? i = some f → units.get? i = some u → values.get? i = some t →
      ∃ w, List.lookup f d = some (u, w) ∧ decodeTok t = .ok w := by
  induction i with
  | zero =>
    intro fields units values acc d f u t h hnd hf hu ht
    cases fields with
    | nil => simp at hf
    | cons f0 fs =>
      cases units with
      | nil => simp at hu
      | cons u0 us =>
        cases values with
        | nil => simp at ht
        | cons v0 vs =>
          simp only [List.get?] at hf hu ht
          cases hf; cases hu; cases ht
          simp only [parseBuoyCols] at h
          cases hd : decodeTok t with
          | error e => rw [hd] at h; simp at h
          | ok w =>
            rw [hd] at h
            refine ⟨w, ?_, rfl⟩
            have hnin : f ∉ fs := (List.nodup_cons.mp hnd).1
            rw [parse_lookup_notin _ _ _ _ _ _ h hnin]
            exact lookup_dictInsert_self f (u, w) acc
  | succ i ih =>
    intro fields units values acc d f u t h hnd hf hu ht
    cases fields with
    | nil => simp at hf
    | cons f0 fs =>
      cases units with
      | nil => simp at hu
      | cons u0 us =>
        cases values with
        | nil => simp at ht
        | cons v0 vs =>
          simp only [List.get?] at hf hu ht
          simp only [parseBuoyCols] at h
          cases hd : decodeTok v0 with
          | error e => rw [hd] at h; simp at h
          | ok w =>
            rw [hd] at h
            exact ih fs us vs _ d f u t h (List.nodup_cons.mp hnd).2 hf hu ht

/-- C4: in a successfully decoded buoy feed column set with distinct field
names, the column whose value token is the sentinel `MM` keeps its unit with
the value marked absent, a non-sentinel token containing a decimal point
decodes to a float, and any other token decodes to an integer, the unit
string preserved in every case. -/
theorem buoy_column_decode (fields units values : List String) (i : Nat)
    (f u t : String) (hnd : fields.Nodup)
    (hok : fetchOk (parseBuoyCols [] fields units values) = true)
    (hf : fields.get? i = some f) (hu : units.get? i = some u)
    (ht : values.get? i = some t) :
    (t = "MM" → parsedLookup fields units values f = some (u, .mm)) ∧
    (t ≠ "MM" → t.toList.contains '.' = true →
      (parsedLookup fields units values f).map Prod.fst = some u ∧
      valIsFloat (parsedLookup fields units values f) = true) ∧
    (t ≠ "MM" → t.toList.contains '.' = false →
      (parsedLookup fields units values f).map Prod.fst = some u ∧
      valIsInt (parsedLookup fields units values f) = true) := by
  obtain ⟨d, hd⟩ : ∃ d, parseBuoyCols [] fields units values = .ok d := by
    cases hp : parseBuoyCols [] fields units values with
    | ok d => exact ⟨d, rfl⟩
    | error e => rw [hp] at hok; simp [fetchOk] at hok
  obtain ⟨w, hw, hdec⟩ := parse_lookup_col i fields units values [] d f u t hd hnd hf hu ht
  have hcases := decodeTok_ok_cases t w hdec
  have hpl : parsedLookup fields units values f = some (u, w) := by
    unfold parsedLookup
    rw [hd]
    exact hw
  refine ⟨fun hmm => ?_, fun hmm hdot => ?_, fun hmm hdot => ?_⟩
  · rw [hpl, hcases.1 hmm]
  · obtain ⟨q, hq⟩ := hcases.2.1 hmm hdot
    subst hq
    rw [hpl]
    exact ⟨rfl, rfl⟩
  · obtain ⟨n, hn⟩ := hcases.2.2 hmm hdot
    subst hn
    rw [hpl]
    exact ⟨rfl, rfl⟩

theorem buoy_column_decode_witness :
    ("MM" = "MM" →
      parsedLookup ["WTMP", "WDIR", "TIDE"] ["degC", "degT", "ft"]
        ["25.1", "180", "MM"] "TIDE" = some ("ft", .mm)) ∧
    ("MM" ≠ "MM" → "MM".toList.contains '.' = true →
      (parsedLookup ["WTMP", "WDIR", "TIDE"] ["degC", "degT", "ft"]
        ["25.1", "180", "MM"] "TIDE").map Prod.fst = some "ft" ∧
      valIsFloat (parsedLookup ["WTMP", "WDIR", "TIDE"] ["degC", "degT", "ft"]
        ["25.1", "180", "MM"] "TIDE") = true) ∧
    ("MM" ≠ "MM" → "MM".toList.contains '.' = false →
      (parsedLookup ["WTMP", "WDIR", "TIDE"] ["degC", "degT", "ft"]
        ["25.1", "180", "MM"] "TIDE").map Prod.fst = some "ft" ∧
      valIsInt (parsedLookup ["WTMP", "WDIR", "TIDE"] ["degC", "degT", "ft"]
        ["25.1", "180", "MM"] "TIDE") = true) :=
  buoy_column_decode ["WTMP", "WDIR", "TIDE"] ["degC", "degT", "ft"]
    ["25.1", "180", "MM"] 2 "TIDE" "ft" "MM" (by decide) (by decide)
    (by decide) (by decide) (by decide)

/-- C5: for a non-date, non-sentinel buoy column with source unit `degC`
under the `english` unit system, the attribute loop reports unit `degF` and
the value `(C * 9/5) + 32` rounded to one decimal place; in particular the
conversion maps 0 to 32.0 and 100 to 212.0. -/
theorem buoy_degC_conversion (isGmt : Bool) (dt : BuoyTime) (k u : String)
    (v : BuoyVal) (hk : k ∉ dateKeys) (hv : v ≠ .mm) (hu : u = "degC") :
    buoyColAttrs "english" isGmt dt k u v =
      [(k ++ "_time", if isGmt then .tUtc dt else .tLoc dt),
       (k ++ "_unit", .s "degF"),
       (k, .q (pyRound1 (buoyValQ v * 9 / 5 + 32)))] ∧
    pyRound1 ((0 : ℚ) * 9 / 5 + 32) = 32 ∧
    pyRound1 ((100 : ℚ) * 9 / 5 + 32) = 212 := by
  refine ⟨?_, ?_, ?_⟩
  · unfold buoyColAttrs
    rw [if_neg hk, if_neg hv, if_pos ⟨rfl, hu⟩]
  · norm_num [pyRound1, roundHalfEven]
  · norm_num [pyRound1, roundHalfEven]

theorem buoy_degC_conversion_witness :
    buoyColAttrs "english" true ⟨2026, 1, 2, 3, 4⟩ "WTMP" "degC" (.floatVal 25) =
      [("WTMP" ++ "_time",
          if true then .tUtc ⟨2026, 1, 2, 3, 4⟩ else .tLoc ⟨2026, 1, 2, 3, 4⟩),
       ("WTMP" ++ "_unit", .s "degF"),
       ("WTMP", .q (pyRound1 (buoyValQ (.floatVal 25) * 9 / 5 + 32)))] ∧
    pyRound1 ((0 : ℚ) * 9 / 5 + 32) = 32 ∧
    pyRound1 ((100 : ℚ) * 9 / 5 + 32) = 212 :=
  buoy_degC_conversion true ⟨2026, 1, 2, 3, 4⟩ "WTMP" "degC" (.floatVal 25)
    (by decide) (by decide) rfl

/-- C10: the buoy sensor's `native_value` is `None` when the coordinator has
no data, when the decoded data has no `WTMP` field, or when `WTMP` holds the
sentinel; otherwise it is the decoded Celsius value under the metric unit
system and the Fahrenheit conversion rounded to one decimal place under any
other unit system. -/
theorem buoy_native_value_spec (us : String) (d : BuoyDict) (u : String)
    (v : BuoyVal) :
    buoy_native_value us none = none ∧
    (List.lookup "WTMP" d = none → buoy_native_value us (some d) = none) ∧
    (List.lookup "WTMP" d = some (u, .mm) → buoy_native_value us (some d) = none) ∧
    (List.lookup "WTMP" d = some (u, v) → v ≠ .mm →
      buoy_native_value "metric" (some d) = some v) ∧
    (List.lookup "WTMP" d = some (u, v) → v ≠ .mm → us ≠ "metric" →
      buoy_native_value us (some d) =
        some (.floatVal (pyRound1 (buoyValQ v * 9 / 5 + 32)))) := by
  refine ⟨rfl, fun h => ?_, fun h => ?_, fun h hv => ?_, fun h hv hm => ?_⟩
  · simp [buoy_native_value, h]
  · simp [buoy_native_value, h]
  · simp [buoy_native_value, h, hv]
  · simp [buoy_native_value, h, hv, hm]

theorem buoy_native_value_spec_witness :
    buoy_native_value "english" none = none ∧
    buoy_native_value "metric"
      (some [("WTMP", ("degC", .intVal 25))]) = some (.intVal 25) ∧
    buoy_native_value "english"
      (some [("WTMP", ("degC", .intVal 25))]) =
      some (.floatVal (pyRound1 (buoyValQ (.intVal 25) * 9 / 5 + 32))) ∧
    buoy_native_value "english" (some [("WTMP", ("degC", .mm))]) = none :=
  ⟨(buoy_native_value_spec "english" [] "degC" .mm).1,
   (buoy_native_value_spec "metric" [("WTMP", ("degC", .intVal 25))] "degC"
      (.intVal 25)).2.2.2.1 (by decide) (by decide),
   (buoy_native_value_spec "english" [("WTMP", ("degC", .intVal 25))] "degC"
      (.intVal 25)).2.2.2.2 (by decide) (by decide) (by decide),
   (buoy_native_value_spec "english" [("WTMP", ("degC", .mm))] "degC"
      .mm).2.2.1 (by decide)⟩

theorem tail1_getLast (l : List ℚ) (w : ℚ) (h : l.getLast? = some w) :
    tail1 l = [w] := by
  induction l with
  | nil => simp at h
  | cons x xs ih =>
    cases xs with
    | nil =>
      simp at h
      subst h
      rfl
    | cons y ys =>
      rw [List.getLast?_cons_cons] at h
      have hys := ih h
      unfold tail1 at hys ⊢
      simp only [List.length_cons]
      have hlen : ys.length + 1 + 1 - 1 = ys.length + 1 := by omega
      rw [hlen, List.drop_succ_cons]
      simpa using hys

/-- C9: the temperature sensor's `native_value` returns the most recent
water temperature when the water-temperature fetch succeeded, falls back to
the most recent air temperature when only the air-temperature fetch
succeeded, and returns `None` when both fetches failed or the coordinator
has no data. -/
theorem temp_native_value_spec (wl al : List ℚ) (af : Option (List ℚ))
    (w a : ℚ) :
    (wl.getLast? = some w →
      temp_native_value (some (temp_fetch_data (some wl) af)) = .ok (some w)) ∧
    (al.getLast? = some a →
      temp_native_value (some (temp_fetch_data none (some al))) = .ok (some a)) ∧
    temp_native_value (some (temp_fetch_data none none)) = .ok none ∧
    temp_native_value none = .ok none := by
  refine ⟨fun hw => ?_, fun ha => ?_, rfl, rfl⟩
  · have ht := tail1_getLast wl w hw
    simp [temp_fetch_data, temp_native_value, ht, seriesGet0]
    rfl
  · have ht := tail1_getLast al a ha
    simp [temp_fetch_data, temp_native_value, ht, seriesGet0]
    rfl

theorem temp_native_value_spec_witness :
    temp_native_value (some (temp_fetch_data (some [14, 15]) (some [20]))) =
      .ok (some 15) ∧
    temp_native_value (some (temp_fetch_data none (some [20, 21]))) =
      .ok (some 21) ∧
    temp_native_value (some (temp_fetch_data none none)) = .ok none ∧
    temp_native_value none = .ok none :=
  ⟨(temp_native_value_spec [14, 15] [] (some [20]) 15 0).1 (by rfl),
   (temp_native_value_spec [] [20, 21] none 0 21).2.1 (by rfl),
   (temp_native_value_spec [] [] none 0 0).2.2.1,
   (temp_native_value_spec [] [] none 0 0).2.2.2⟩

theorem find?_append_some {α : Type} (p : α → Bool) (l1 l2 : List α)
    (s : α) (h : l1.find? p = some s) : (l1 ++ l2).find? p = some s := by
  induction l1 with
  | nil => simp [List.find?] at h
  | cons x xs ih =>
    cases hp : p x with
    | true =>
      rw [List.find?_cons_of_pos _ hp] at h
      rw [List.cons_append, List.find?_cons_of_pos _ hp]
      exact h
    | false =>
      rw [List.find?_cons_of_neg _ (by simp [hp])] at h
      rw [List.cons_append, List.find?_cons_of_neg _ (by simp [hp])]
      exact ih h

theorem find?_append_none {α : Type} (p : α → Bool) (l1 l2 : List α)
    (h : l1.find? p = none) : (l1 ++ l2).find? p = l2.find? p := by
  induction l1 with
  | nil => rfl
  | cons x xs ih =>
    cases hp : p x with
    | true => rw [List.find?_cons_of_pos _ hp] at h; cases h
    | false =>
      rw [List.find?_cons_of_neg _ (by simp [hp])] at h
      rw [List.cons_append, List.find?_cons_of_neg _ (by simp [hp])]
      exact ih h

/-- C7: for the NOAA station types `tides` and `temp`, `verify_station_id`
returns `true` with the matching record's name when a station with exactly
the requested id occurs in the fetched directory lists, and `false` with a
not-found message when none does; the function is total, so no exception
reaches the caller. -/
theorem verify_station_lookup (station_type station_id : String)
    (tidepred waterlevels : List StationRec) (s : StationRec) (nm : String)
    (hty : station_type = "tides" ∨ station_type = "temp") :
    ((tidepred ++ waterlevels).find? (fun r => r.sid = some station_id) = some s →
      s.sname = some nm →
      verify_station_id station_type station_id tidepred waterlevels = (true, nm)) ∧
    ((tidepred ++ waterlevels).find? (fun r => r.sid = some station_id) = none →
      verify_station_id station_type station_id tidepred waterlevels =
        (false, "Station ID " ++ station_id ++ " not found")) := by
  have hb : ¬(station_type = "buoy") := by
    rcases hty with h | h <;> rw [h] <;> decide
  constructor
  · intro hfind hname
    unfold verify_station_id
    rw [if_neg hb]
    cases htp : tidepred.find? (fun r => r.sid = some station_id) with
    | some s1 =>
      have : (tidepred ++ waterlevels).find? (fun r => r.sid = some station_id)
          = some s1 := find?_append_some _ _ _ _ htp
      rw [this] at hfind
      cases hfind
      simp [hname]
    | none =>
      have hw : (tidepred ++ waterlevels).find? (fun r => r.sid = some station_id)
          = waterlevels.find? (fun r => r.sid = some station_id) :=
        find?_append_none _ _ _ htp
      rw [hw] at hfind
      rw [hfind]
      simp [hname]
  · intro hfind
    unfold verify_station_id
    rw [if_neg hb]
    cases htp : tidepred.find? (fun r => r.sid = some station_id) with
    | some s1 =>
      have : (tidepred ++ waterlevels).find? (fun r => r.sid = some station_id)
          = some s1 := find?_append_some _ _ _ _ htp
      rw [this] at hfind
      cases hfind
    | none =>
      have hw : (tidepred ++ waterlevels).find? (fun r => r.sid = some station_id)
          = waterlevels.find? (fun r => r.sid = some station_id) :=
        find?_append_none _ _ _ htp
      rw [hw] at hfind
      rw [hfind]

theorem verify_station_lookup_witness :
    verify_station_id "tides" "9414290"
      [⟨some "9414290", some "San Francisco", some "CA"⟩] [] =
      (true, "San Francisco") ∧
    verify_station_id "temp" "0000"
      [⟨some "9414290", some "San Francisco", some "CA"⟩] [] =
      (false, "Station ID " ++ "0000" ++ " not found") :=
  ⟨(verify_station_lookup "tides" "9414290"
      [⟨some "9414290", some "San Francisco", some "CA"⟩] []
      ⟨some "9414290", some "San Francisco", some "CA"⟩ "San Francisco"
      (Or.inl rfl)).1 (by decide) rfl,
   (verify_station_lookup "temp" "0000"
      [⟨some "9414290", some "San Francisco", some "CA"⟩] []
      ⟨none, none, none⟩ "x" (Or.inr rfl)).2 (by decide)⟩

/-- C8: once a directory fetch for a station type has succeeded, the list is
cached under that type's key; a cache hit answers every later
`fetch_noaa_stations` call for the same type with the identical cached list,
making no network request and leaving the cache unchanged, so the behaviour
persists for the process lifetime. -/
theorem station_cache_forever (cache c2 : StationCache) (t : String)
    (stations : List StationRec) (resp2 : NetResp)
    (hmiss : List.lookup ("noaa_" ++ t) cache = none)
    (hhit : List.lookup ("noaa_" ++ t) c2 = some stations) :
    fetch_noaa_stations cache t (.ok stations) =
      (stations, dictInsert ("noaa_" ++ t) stations cache, true) ∧
    List.lookup ("noaa_" ++ t) (dictInsert ("noaa_" ++ t) stations cache) =
      some stations ∧
    fetch_noaa_stations c2 t resp2 = (stations, c2, false) := by
  refine ⟨?_, lookup_dictInsert_self _ _ _, ?_⟩
  · unfold fetch_noaa_stations
    rw [hmiss]
  · unfold fetch_noaa_stations
    rw [hhit]

theorem station_cache_forever_witness :
    fetch_noaa_stations [] "tidepredictions"
      (.ok ([⟨some "8410140", some "Eastport", some "ME"⟩] : List StationRec)) =
      (([⟨some "8410140", some "Eastport", some "ME"⟩] : List StationRec),
        dictInsert ("noaa_" ++ "tidepredictions")
          ([⟨some "8410140", some "Eastport", some "ME"⟩] : List StationRec) [],
        true) ∧
    List.lookup ("noaa_" ++ "tidepredictions")
      (dictInsert ("noaa_" ++ "tidepredictions")
        ([⟨some "8410140", some "Eastport", some "ME"⟩] : List StationRec) []) =
      some ([⟨some "8410140", some "Eastport", some "ME"⟩] : List StationRec) ∧
    fetch_noaa_stations
      [("noaa_tidepredictions",
        ([⟨some "8410140", some "Eastport", some "ME"⟩] : List StationRec))]
      "tidepredictions" .exn =
      (([⟨some "8410140", some "Eastport", some "ME"⟩] : List StationRec),
        [("noaa_tidepredictions",
          ([⟨some "8410140", some "Eastport", some "ME"⟩] : List StationRec))],
        false) :=
  station_cache_forever []
    [("noaa_tidepredictions",
      ([⟨some "8410140", some "Eastport", some "ME"⟩] : List StationRec))]
    "tidepredictions" ([⟨some "8410140", some "Eastport", some "ME"⟩] : List StationRec)
    .exn (by decide) (by decide)


theorem scanLoop_cons_some (now : Int) (a : TideAttrs) (m : Int)
    (p : TidePred) (rest : List TidePred) :
    scanLoop now a (some m) (p :: rest) =
      if p.time ≤ now ∧ m < p.time then scanLoop now a (some p.time) rest
      else if now < p.time then scanFire now a m p
      else scanLoop now a (some m) rest := rfl

theorem scanLoop_all_le (now : Int) (l : List TidePred) :
    ∀ (a : TideAttrs) (mr : Option Int), (∀ q ∈ l, q.time ≤ now) →
      scanLoop now a mr l = a := by
  induction l with
  | nil => intro a mr _; rfl
  | cons p rest ih =>
    intro a mr h
    have hp : p.time ≤ now := h p (List.mem_cons_self _ _)
    have hrest : ∀ q ∈ rest, q.time ≤ now := fun q hq => h q (List.mem_cons_of_mem _ hq)
    cases mr with
    | none => exact ih a (some p.time) hrest
    | some m =>
      rw [scanLoop_cons_some]
      by_cases hc : p.time ≤ now ∧ m < p.time
      · rw [if_pos hc]
        exact ih a (some p.time) hrest
      · rw [if_neg hc, if_neg (not_lt.mpr hp)]
        exact ih a (some m) hrest

theorem extra_attrs_eq_scan (now : Int) (a0 : Option TideAttrs)
    (l : List TidePred) (cwl : Option (List WLObs)) :
    ∃ a1 : TideAttrs,
      extra_state_attributes now a0 (some ⟨some l, cwl⟩) = scanLoop now a1 none l ∧
      a1.next_tide_time = (a0.getD {}).next_tide_time ∧
      a1.next_tide_type = (a0.getD {}).next_tide_type ∧
      a1.last_tide_time = (a0.getD {}).last_tide_time ∧
      a1.last_tide_type = (a0.getD {}).last_tide_type := by
  cases cwl with
  | none => exact ⟨a0.getD {}, rfl, rfl, rfl, rfl, rfl⟩
  | some wl =>
    cases hgl : wl.getLast? with
    | none =>
      refine ⟨a0.getD {}, ?_, rfl, rfl, rfl, rfl⟩
      simp only [extra_state_attributes, extractCoordinatorData, hgl]
    | some obs =>
      refine ⟨{ a0.getD {} with
        current_water_level := some obs.water_level,
        current_water_level_time := some obs.time }, ?_, rfl, rfl, rfl, rfl⟩
      simp only [extra_state_attributes, extractCoordinatorData, hgl]

/-- C6: when the prediction window is empty, missing, or contains only
points at or before the current time, the tides sensor's attribute
computation publishes none of the next/last tide attributes; the
computation is a total function, so no exception propagates. -/
theorem tides_no_future_attrs (now : Int) (preds : Option (List TidePred))
    (cwl : Option (List WLObs))
    (hpast : ∀ q ∈ preds.getD [], q.time ≤ now) :
    ((extra_state_attributes now none (some ⟨preds, cwl⟩)).next_tide_time = none) ∧
    ((extra_state_attributes now none (some ⟨preds, cwl⟩)).next_tide_type = none) ∧
    ((extra_state_attributes now none (some ⟨preds, cwl⟩)).last_tide_time = none) ∧
    ((extra_state_attributes now none (some ⟨preds, cwl⟩)).last_tide_type = none) := by
  cases preds with
  | none => exact ⟨rfl, rfl, rfl, rfl⟩
  | some l =>
    have hpast' : ∀ q ∈ l, q.time ≤ now := by simpa using hpast
    obtain ⟨a1, heq, h1, h2, h3, h4⟩ := extra_attrs_eq_scan now none l cwl
    rw [heq, scanLoop_all_le now l a1 none hpast']
    exact ⟨h1, h2, h3, h4⟩

theorem tides_no_future_attrs_witness :
    ((extra_state_attributes 0 none
        (some ⟨some [⟨-3600, "H", 1⟩], none⟩)).next_tide_time = none) ∧
    ((extra_state_attributes 0 none
        (some ⟨some [⟨-3600, "H", 1⟩], none⟩)).next_tide_type = none) ∧
    ((extra_state_attributes 0 none
        (some ⟨some [⟨-3600, "H", 1⟩], none⟩)).last_tide_time = none) ∧
    ((extra_state_attributes 0 none
        (some ⟨some [⟨-3600, "H", 1⟩], none⟩)).last_tide_type = none) :=
  tides_no_future_attrs 0 (some [⟨-3600, "H", 1⟩]) none (by decide)

theorem updf_preserves (now : Int) (a : TideAttrs) :
    ((update_tide_factor_from_attr now (some a)).getD a).next_tide_time =
      a.next_tide_time ∧
    ((update_tide_factor_from_attr now (some a)).getD a).last_tide_time =
      a.last_tide_time ∧
    ((update_tide_factor_from_attr now (some a)).getD a).next_tide_type =
      a.next_tide_type ∧
    ((update_tide_factor_from_attr now (some a)).getD a).last_tide_type =
      a.last_tide_type := by
  simp only [update_tide_factor_from_attr]
  split <;> first
    | exact ⟨rfl, rfl, rfl, rfl⟩
    | (split <;> exact ⟨rfl, rfl, rfl, rfl⟩)

theorem classifyTide_times (a1 : TideAttrs) (p : TidePred) :
    (classifyTide a1 p).next_tide_time = a1.next_tide_time ∧
    (classifyTide a1 p).last_tide_time = a1.last_tide_time := by
  unfold classifyTide
  split
  · exact ⟨rfl, rfl⟩
  · split
    · exact ⟨rfl, rfl⟩
    · exact ⟨rfl, rfl⟩

theorem classifyTide_types (a1 : TideAttrs) (p : TidePred) :
    (p.hi_lo = "H" → (classifyTide a1 p).next_tide_type = some "High" ∧
      (classifyTide a1 p).last_tide_type = some "Low") ∧
    (p.hi_lo = "L" → (classifyTide a1 p).next_tide_type = some "Low" ∧
      (classifyTide a1 p).last_tide_type = some "High") := by
  constructor
  · intro hH
    unfold classifyTide
    rw [if_pos hH]
    exact ⟨rfl, rfl⟩
  · intro hL
    have hH : ¬(p.hi_lo = "H") := by rw [hL]; decide
    unfold classifyTide
    rw [if_neg hH, if_pos hL]
    exact ⟨rfl, rfl⟩

theorem scanFire_fields (now : Int) (a : TideAttrs) (m : Int) (p : TidePred) :
    (scanFire now a m p).next_tide_time = some (fmtTime12h p.time) ∧
    (scanFire now a m p).last_tide_time = some (fmtTime12h m) ∧
    (p.hi_lo = "H" → (scanFire now a m p).next_tide_type = some "High" ∧
      (scanFire now a m p).last_tide_type = some "Low") ∧
    (p.hi_lo = "L" → (scanFire now a m p).next_tide_type = some "Low" ∧
      (scanFire now a m p).last_tide_type = some "High") := by
  have hu := updf_preserves now (classifyTide (publishTimes a m p) p)
  have hct := classifyTide_times (publishTimes a m p) p
  have hcy := classifyTide_types (publishTimes a m p) p
  unfold scanFire
  refine ⟨?_, ?_, fun hH => ?_, fun hL => ?_⟩
  · rw [hu.1, hct.1]
    exact rfl
  · rw [hu.2.1, hct.2]
    exact rfl
  · exact ⟨(hu.2.2.1).trans (hcy.1 hH).1, (hu.2.2.2).trans (hcy.1 hH).2⟩
  · exact ⟨(hu.2.2.1).trans (hcy.2 hL).1, (hu.2.2.2).trans (hcy.2 hL).2⟩

theorem scanLoop_skip (now : Int) (l1 : List TidePred) :
    ∀ (m : Int) (a : TideAttrs) (rest : List TidePred),
      (∀ q ∈ l1, q.time ≤ now) → timesSortedFrom m (l1 ++ rest) = true →
      scanLoop now a (some m) (l1 ++ rest) =
        scanLoop now a (some (((l1.getLast?).map TidePred.time).getD m)) rest := by
  induction l1 with
  | nil => intro m a rest _ _; rfl
  | cons q l1 ih =>
    intro m a rest hpast hsort
    have hq : q.time ≤ now := hpast q (List.mem_cons_self _ _)
    have hmq : m < q.time := by
      simp only [List.cons_append, timesSortedFrom, Bool.and_eq_true,
        decide_eq_true_eq] at hsort
      exact hsort.1
    have hsort' : timesSortedFrom q.time (l1 ++ rest) = true := by
      simp only [List.cons_append, timesSortedFrom, Bool.and_eq_true] at hsort
      exact hsort.2
    have hpast' : ∀ r ∈ l1, r.time ≤ now := fun r hr => hpast r (List.mem_cons_of_mem _ hr)
    rw [List.cons_append, scanLoop_cons_some, if_pos ⟨hq, hmq⟩]
    rw [ih q.time a rest hpast' hsort']
    cases l1 with
    | nil => rfl
    | cons x xs =>
      rw [List.getLast?_cons_cons]
      exact rfl

/-- C2 (amended): for a time-ordered prediction window containing at least
one point at or before `now` and a first point `p` strictly after `now`, the
tides sensor's attribute computation publishes `next_tide_time` as the
formatted time of `p`, `last_tide_time` as the formatted time of the most
recent point at or before `now`, and, when `p` is flagged `H` (resp. `L`),
`next_tide_type` `High` with `last_tide_type` `Low` (resp. `Low` with
`High`).  The original claim, quantified over every non-empty window, fails
when every point lies strictly after `now`. -/
theorem tides_next_last_attrs (now : Int) (a0 : Option TideAttrs)
    (cwl : Option (List WLObs)) (l1 l2 : List TidePred) (p plast : TidePred)
    (hsort : timesSorted (l1 ++ p :: l2) = true)
    (hpast : ∀ q ∈ l1, q.time ≤ now)
    (hlast : l1.getLast? = some plast)
    (hnext : now < p.time) :
    ((extra_state_attributes now a0
        (some ⟨some (l1 ++ p :: l2), cwl⟩)).next_tide_time =
      some (fmtTime12h p.time)) ∧
    ((extra_state_attributes now a0
        (some ⟨some (l1 ++ p :: l2), cwl⟩)).last_tide_time =
      some (fmtTime12h plast.time)) ∧
    (p.hi_lo = "H" →
      (extra_state_attributes now a0
          (some ⟨some (l1 ++ p :: l2), cwl⟩)).next_tide_type = some "High" ∧
      (extra_state_attributes now a0
          (some ⟨some (l1 ++ p :: l2), cwl⟩)).last_tide_type = some "Low") ∧
    (p.hi_lo = "L" →
      (extra_state_attributes now a0
          (some ⟨some (l1 ++ p :: l2), cwl⟩)).next_tide_type = some "Low" ∧
      (extra_state_attributes now a0
          (some ⟨some (l1 ++ p :: l2), cwl⟩)).last_tide_type = some "High") := by
  obtain ⟨a1, heq, -, -, -, -⟩ := extra_attrs_eq_scan now a0 (l1 ++ p :: l2) cwl
  rw [heq]
  cases l1 with
  | nil => simp at hlast
  | cons x l1 =>
    have hpast' : ∀ r ∈ l1, r.time ≤ now :=
      fun r hr => hpast r (List.mem_cons_of_mem _ hr)
    have hsort' : timesSortedFrom x.time (l1 ++ p :: l2) = true := hsort
    have h1 : scanLoop now a1 none ((x :: l1) ++ p :: l2) =
        scanLoop now a1 (some x.time) (l1 ++ p :: l2) := rfl
    have h2 := scanLoop_skip now l1 x.time a1 (p :: l2) hpast' hsort'
    have h3 : scanLoop now a1
        (some (((l1.getLast?).map TidePred.time).getD x.time)) (p :: l2) =
        scanFire now a1 (((l1.getLast?).map TidePred.time).getD x.time) p := by
      rw [scanLoop_cons_some, if_neg (fun hc => absurd hnext (not_lt.mpr hc.1)),
        if_pos hnext]
    have hM : ((l1.getLast?).map TidePred.time).getD x.time = plast.time := by
      cases l1 with
      | nil =>
        simp only [List.getLast?_singleton, Option.some.injEq] at hlast
        rw [hlast]
        rfl
      | cons y ys =>
        rw [List.getLast?_cons_cons] at hlast
        rw [hlast]
        rfl
    rw [h1, h2, h3, hM]
    exact scanFire_fields now a1 plast.time p

/-- C2 counterexample: with `now = 0` and the time-ordered window
`[600 H, 1200 L]` lying entirely in the future, the first point strictly
after `now` is the one at 600, yet the attribute computation publishes
`next_tide_time` as the formatted time of the second point (1200) and even
publishes a `last_tide_time` although no point lies at or before `now`;
this refutes the claim as stated for every non-empty time-ordered window. -/
theorem tides_next_last_attrs_cex :
    ((extra_state_attributes 0 none
        (some ⟨some [⟨600, "H", 0⟩, ⟨1200, "L", 0⟩], none⟩)).next_tide_time =
      some (fmtTime12h 1200)) ∧
    (0 : Int) < 600 ∧ (600 : Int) < 1200 ∧
    fmtTime12h 1200 ≠ fmtTime12h 600 ∧
    ((extra_state_attributes 0 none
        (some ⟨some [⟨600, "H", 0⟩, ⟨1200, "L", 0⟩], none⟩)).last_tide_time =
      some (fmtTime12h 600)) := by
  refine ⟨by decide, by decide, by decide, by decide, by decide⟩

theorem tides_next_last_attrs_witness :
    ((extra_state_attributes 600 none
        (some ⟨some [⟨100, "L", 2⟩, ⟨700, "H", 3⟩], none⟩)).next_tide_time =
      some (fmtTime12h 700)) ∧
    ((extra_state_attributes 600 none
        (some ⟨some [⟨100, "L", 2⟩, ⟨700, "H", 3⟩], none⟩)).last_tide_time =
      some (fmtTime12h 100)) ∧
    ("H" = "H" →
      (extra_state_attributes 600 none
          (some ⟨some [⟨100, "L", 2⟩, ⟨700, "H", 3⟩], none⟩)).next_tide_type =
        some "High" ∧
      (extra_state_attributes 600 none
          (some ⟨some [⟨100, "L", 2⟩, ⟨700, "H", 3⟩], none⟩)).last_tide_type =
        some "Low") ∧
    ("H" = "L" →
      (extra_state_attributes 600 none
          (some ⟨some [⟨100, "L", 2⟩, ⟨700, "H", 3⟩], none⟩)).next_tide_type =
        some "Low" ∧
      (extra_state_attributes 600 none
          (some ⟨some [⟨100, "L", 2⟩, ⟨700, "H", 3⟩], none⟩)).last_tide_type =
        some "High") :=
  tides_next_last_attrs 600 none none [⟨100, "L", 2⟩] [] ⟨700, "H", 3⟩
    ⟨100, "L", 2⟩ (by decide) (by decide) (by decide) (by decide)

theorem half_cosine_mid (e p : ℕ) (hp : p = 2 * e) (he : 0 < e) :
    (50 : ℝ) - 50 * Real.cos ((e : ℝ) * Real.pi / (p : ℝ)) = 50 := by
  subst hp
  have he0 : (e : ℝ) ≠ 0 := Nat.cast_ne_zero.mpr he.ne'
  have harg : (e : ℝ) * Real.pi / (((2 * e : ℕ) : ℕ) : ℝ) = Real.pi / 2 := by
    push_cast
    field_simp
    ring
  rw [harg, Real.cos_pi_div_two, mul_zero, sub_zero]

/-- C1: when the tides sensor's attributes hold a `Low` last tide and a
`High` next tide and the current time is exactly halfway between the parsed
last and next tide times (both within one day), the recomputed `tide_factor`
attribute equals 50, the midpoint of the rising half-cosine easing. -/
theorem tide_factor_halfway (a : TideAttrs) (lt nt : ℕ) (now : Int)
    (hlt : a.last_tide_time = some lt) (hnt : a.next_tide_time = some nt)
    (hty : a.next_tide_type = some "High")
    (_hlty : a.last_tide_type = some "Low")
    (hord : lt < nt) (hnt86 : nt < 86400)
    (hhalf : 2 * now.emod 86400 = (lt : Int) + (nt : Int)) :
    update_tide_factor_from_attr now (some a) =
      some { a with tide_factor := some (50 : ℝ) } := by
  have hS0 : 0 ≤ now.emod 86400 := Int.emod_nonneg _ (by norm_num)
  have hS1 : now.emod 86400 < 86400 := Int.emod_lt_of_pos _ (by norm_num)
  have hltmod : ((lt : Int)).emod 86400 = (lt : Int) :=
    Int.emod_eq_of_lt (by omega) (by omega)
  have hmod : (now - (lt : Int)).emod 86400 = now.emod 86400 - (lt : Int) := by
    have hsub : (now - (lt : Int)).emod 86400 =
        ((now.emod 86400) - ((lt : Int).emod 86400)).emod 86400 :=
      Int.sub_emod now (lt : Int) 86400
    rw [hsub, hltmod]
    exact Int.emod_eq_of_lt (by omega) (by omega)
  have hntmod : ((nt : Int) - (lt : Int)).emod 86400 = (nt : Int) - (lt : Int) :=
    Int.emod_eq_of_lt (by omega) (by omega)
  have hperiod : tdSeconds (nt : Int) (lt : Int) = nt - lt := by
    unfold tdSeconds
    rw [hntmod]
    omega
  have helapsed : tdSeconds now (lt : Int) = (nt - lt) / 2 := by
    unfold tdSeconds
    rw [hmod]
    omega
  have hcos := half_cosine_mid ((nt - lt) / 2) (nt - lt) (by omega) (by omega)
  simp only [update_tide_factor_from_attr, hlt, hnt, hty]
  rw [if_true, hperiod, helapsed, hcos]

theorem tide_factor_halfway_witness :
    update_tide_factor_from_attr 3600
      (some { last_tide_time := some 0, next_tide_time := some 7200,
              next_tide_type := some "High", last_tide_type := some "Low" }) =
      some { ({ last_tide_time := some 0, next_tide_time := some 7200,
                next_tide_type := some "High",
                last_tide_type := some "Low" } : TideAttrs) with
             tide_factor := some (50 : ℝ) } :=
  tide_factor_halfway
    { last_tide_time := some 0, next_tide_time := some 7200,
      next_tide_type := some "High", last_tide_type := some "Low" }
    0 7200 3600 rfl rfl rfl rfl (by decide) (by decide) (by decide)
